import Mathlib

/-!
Verification of the audio-stitching repository: a shallow embedding of
`src/utils/storage.ts` (OpfsStorage), `src/utils/audio.ts`,
`src/components/AddNew/AddNew.tsx` (upload flow), the `useOpfsDirectories`
hook (catalog load), and the `StitchAudio` playback component, together
with theorems settling the frozen claims about them.

Conventions of the embedding:
* JS strings that are manipulated character-wise (paths, file names) are
  modelled as `List Char`; plain strings stay `String`.
* Byte buffers (`ArrayBuffer`, `Blob`, typed views) are `List Nat`.
* The OPFS store is an association list from the normalised path-segment
  list to the stored bytes; `insertEntry` replaces in place, mirroring
  truncate-then-write semantics.
* JS numbers used as timestamps are `Int`; audio-clock times and buffer
  durations are `ℚ` (exact arithmetic standing in for the float arithmetic
  the code performs; the recurrences proved are the ones the code computes).
* Fallible operations return `Except StorageError`.
-/

set_option linter.unusedVariables false

abbrev Bytes := List Nat

abbrev Seg := List Char

abbrev Key := List Seg

abbrev Store := List (Key × Bytes)

/-- `path.split("/")`: split a character list on `'/'`, keeping empty
segments (JS `String.prototype.split` semantics). -/
def splitRaw : List Char → List (List Char)
  | [] => [[]]
  | c :: rest =>
    match splitRaw rest with
    | [] => [[]]
    | s :: ss => if c = '/' then [] :: s :: ss else (c :: s) :: ss

/-- `path.split("/").filter(Boolean)`: drop the empty segments, as both
`_ensureDirectory` and `deleteDirectory` do in `storage.ts`. -/
def splitPath (cs : List Char) : List Seg :=
  (splitRaw cs).filter (fun s => s ≠ [])

/-- The host environment as far as `OpfsStorage` probes it: whether
`WorkerGlobalScope`/`self` exist, whether `window` exists, and whether
`navigator.storage.getDirectory` is available. In a real dedicated worker
`window` is absent; the model keeps the flags independent and lets the
theorems pick the realistic combinations. -/
structure ExecEnv where
  hasWorkerScope : Bool
  hasWindow : Bool
  opfsSupported : Bool
deriving DecidableEq, Repr

inductive ExecContext where
  | worker
  | window
  | unknown
deriving DecidableEq, Repr

/-- `OpfsStorage._getExecutionContext`. -/
def getExecutionContext (env : ExecEnv) : ExecContext :=
  if env.hasWorkerScope then .worker
  else if env.hasWindow then .window
  else .unknown

/-- `OpfsStorage._ensureInit` succeeds iff the context is known and OPFS is
supported. -/
def ensureInitOk (env : ExecEnv) : Bool :=
  (match getExecutionContext env with
   | .unknown => false
   | _ => true) && env.opfsSupported

inductive StorageError where
  | initError
  | invalidPath
  | notFound
deriving DecidableEq, Repr

inductive ChangeType where
  | fileAdded
  | fileDeleted
  | directoryAdded
  | directoryDeleted
deriving DecidableEq, Repr

/-- `OpfsChangeDetail`. -/
structure ChangeEvent where
  type : ChangeType
  path : List Char
deriving DecidableEq, Repr

/-- `OpfsStorage.emitChange`: dispatches on `window` only when
`typeof window !== "undefined"`; in a worker nothing is dispatched. The
result is the list of events actually published by the call. -/
def emitChange (env : ExecEnv) (e : ChangeEvent) : List ChangeEvent :=
  if env.hasWindow then [e] else []

/-- The payload union `string | ArrayBuffer | Blob | ArrayBufferView` of
`saveFile`. A view carries its backing buffer plus `byteOffset` and
`byteLength`. -/
inductive StorageData where
  | str (s : String)
  | arrayBuffer (b : Bytes)
  | view (backing : Bytes) (byteOffset byteLength : Nat)
  | blob (b : Bytes)
deriving DecidableEq, Repr

/-- UTF-8 bytes of a string (`new TextEncoder().encode(s)`). -/
def strBytes (s : String) : Bytes :=
  (s.data.flatMap String.utf8EncodeChar).map (fun b => b.toNat)

/-- The bytes a payload denotes on the platform: what
`FileSystemWritableFileStream.write(data)` persists in the window context.
For a view this is the `byteOffset ..= byteOffset+byteLength` window of its
backing buffer (clipped like `ArrayBuffer.slice`). -/
def dataBytes : StorageData → Bytes
  | .str s => strBytes s
  | .arrayBuffer b => b
  | .view backing off len => (backing.drop off).take len
  | .blob b => b

/-- The branch cascade inside the worker arm of `saveFile` that builds the
`buffer` handed to `syncHandle.write`; the final `Unsupported data type`
throw is unreachable because the union is exhausted. -/
def workerBuffer : StorageData → Bytes
  | .str s => strBytes s
  | .arrayBuffer b => b
  | .view backing off len => (backing.drop off).take len
  | .blob b => b

/-- Insert-or-replace at a key, keeping the first occurrence's position:
writing through a file handle truncates and rewrites the same file. -/
def insertEntry (k : Key) (v : Bytes) : Store → Store
  | [] => [(k, v)]
  | (k0, v0) :: rest =>
    if k0 = k then (k, v) :: rest else (k0, v0) :: insertEntry k v rest

def lookupEntry (k : Key) : Store → Option Bytes
  | [] => none
  | (k0, v0) :: rest => if k0 = k then some v0 else lookupEntry k rest

/-- `OpfsStorage.saveFile(path, data)`: init check, path normalisation
(`_ensureDirectory`, which fails on an empty segment list), write through
the context-appropriate strategy (replacing previous content), then
`emitChange({type: "file-added", path})`. Returns the new store and the
events actually published. -/
def saveFile (env : ExecEnv) (st : Store) (path : List Char)
    (data : StorageData) : Except StorageError (Store × List ChangeEvent) :=
  if ensureInitOk env = false then .error .initError
  else
    match splitPath path with
    | [] => .error .invalidPath
    | _ :: _ =>
      let written :=
        match getExecutionContext env with
        | .worker => workerBuffer data
        | _ => dataBytes data
      .ok (insertEntry (splitPath path) written st,
           emitChange env ⟨.fileAdded, path⟩)

/-- `OpfsStorage.readFile(path)`: init check, path normalisation, then the
stored bytes (the worker arm reads `getSize()` bytes at offset 0, the
window arm takes `file.arrayBuffer()`; both observe the full stored
content). A missing intermediate directory or leaf is `NotFoundError`. -/
def readFile (env : ExecEnv) (st : Store) (path : List Char) :
    Except StorageError Bytes :=
  if ensureInitOk env = false then .error .initError
  else
    match splitPath path with
    | [] => .error .invalidPath
    | _ :: _ =>
      match lookupEntry (splitPath path) st with
      | none => .error .notFound
      | some b =>
        match getExecutionContext env with
        | .worker => .ok b
        | _ => .ok b

/-- The `AudioMetadata` sidecar record of `src/utils/audio.ts` (the required
fields; the optional `duration` and extended `metadata` group play no role
in any claim and are omitted from the projection). -/
structure AudioMetadataRec where
  name : String
  folderName : String
  fileName : String
  color : String
  cover : String
  size : Nat
  mimeType : String
  uploadedAt : Int
  lastModified : Int
deriving DecidableEq, Repr

/-- `Promise.all(xs.map(f))` over fallible `f`: succeeds with the results in
order iff every element succeeds; the model returns the first (in list
order) failure when one exists. -/
def mapExcept {ε α β : Type} (f : α → Except ε β) : List α → Except ε (List β)
  | [] => .ok []
  | a :: as =>
    match f a with
    | .error e => .error e
    | .ok b =>
      match mapExcept f as with
      | .error e => .error e
      | .ok bs => .ok (b :: bs)

/-- One insertion step of the stable descending sort: walk past the entries
with strictly larger `uploadedAt`, then place `m` in front of the rest (so
`m` lands before any entry with an equal key that was inserted earlier in
the recursion, i.e. that sat later in the original list). -/
def insertDesc (m : AudioMetadataRec) :
    List AudioMetadataRec → List AudioMetadataRec
  | [] => [m]
  | x :: xs =>
    if m.uploadedAt < x.uploadedAt then x :: insertDesc m xs
    else m :: x :: xs

/-- `.sort((a, b) => b.uploadedAt - a.uploadedAt)`. JS `Array.prototype.sort`
is stable, and a stable sort's output is uniquely determined by the
comparator, so this insertion sort is the sort the code performs. -/
def sortByUploadedDesc : List AudioMetadataRec → List AudioMetadataRec
  | [] => []
  | x :: xs => insertDesc x (sortByUploadedDesc xs)

/-- `loadFolders` of the `useOpfsDirectories` hook. `listing` is the result
of `OpfsStorage.listDirectories()`; `readMeta d` is the result of reading
and parsing `d/metadata.json` (`OpfsStorage.readFile` + `TextDecoder` +
`JSON.parse`, fused here into one fallible oracle because the parser is a
platform collaborator). The body is a bare `Promise.all` over the entries —
there is no per-entry catch — followed by the descending sort. -/
def loadFolders (listing : Except StorageError (List String))
    (readMeta : String → Except StorageError AudioMetadataRec) :
    Except StorageError (List AudioMetadataRec) :=
  match listing with
  | .error e => .error e
  | .ok dirs =>
    match mapExcept readMeta dirs with
    | .error e => .error e
    | .ok ms => .ok (sortByUploadedDesc ms)

/-- `AUDIO_MIME_TYPES` from `src/utils/audio.ts`, in source order. -/
def AUDIO_MIME_TYPES : List (String × String) :=
  [("mp3", "audio/mpeg"), ("wav", "audio/wav"), ("ogg", "audio/ogg"),
   ("oga", "audio/ogg"), ("aac", "audio/aac"), ("m4a", "audio/mp4"),
   ("m4b", "audio/mp4"), ("m4p", "audio/mp4"), ("flac", "audio/flac"),
   ("alac", "audio/x-alac"), ("weba", "audio/webm"), ("aiff", "audio/aiff"),
   ("aif", "audio/aiff"), ("aifc", "audio/aiff"), ("opus", "audio/opus"),
   ("wma", "audio/x-ms-wma"), ("au", "audio/basic"), ("snd", "audio/basic"),
   ("mid", "audio/midi"), ("midi", "audio/midi"), ("kar", "audio/midi"),
   ("rmi", "audio/midi"), ("3gp", "audio/3gpp"), ("3ga", "audio/3gpp"),
   ("m3u", "audio/x-mpegurl"), ("m3u8", "audio/x-mpegurl"),
   ("mp1", "audio/mpeg"), ("mp2", "audio/mpeg"), ("mpa", "audio/mpeg"),
   ("ra", "audio/x-realaudio"), ("ram", "audio/x-pn-realaudio"),
   ("rm", "audio/x-pn-realaudio"), ("ape", "audio/x-monkeys-audio"),
   ("wv", "audio/x-wavpack"), ("tta", "audio/x-tta"), ("dts", "audio/vnd.dts"),
   ("dtshd", "audio/vnd.dts.hd"), ("ac3", "audio/ac3"), ("eac3", "audio/eac3"),
   ("amr", "audio/amr"), ("awb", "audio/amr-wb"), ("voc", "audio/x-voc"),
   ("spx", "audio/ogg")]

/-- Generic `s.split(sep)` on character lists, keeping empty segments. -/
def splitChar (sep : Char) : List Char → List (List Char)
  | [] => [[]]
  | c :: rest =>
    match splitChar sep rest with
    | [] => [[]]
    | s :: ss => if c = sep then [] :: s :: ss else (c :: s) :: ss

/-- Key lookup in `AUDIO_MIME_TYPES`, with the extension as characters. -/
def mimeLookup (ext : List Char) : List (String × String) → Option String
  | [] => none
  | (k, v) :: rest => if k.toList = ext then some v else mimeLookup ext rest

/-- A picked or dropped `File`: name, MIME type, size, `lastModified`, and
its byte content (a `File` is a `Blob`). -/
structure JsFile where
  name : String
  type : String
  size : Nat
  lastModified : Int
  content : Bytes
deriving DecidableEq, Repr

/-- `getMimeTypeFromExtension`: lowercase, split on `'.'`, take the last
segment, look it up, default `"audio/mp3"`. -/
def getMimeTypeFromExtension (fileName : String) : String :=
  let ext := (splitChar '.' (fileName.toList.map Char.toLower)).getLastD []
  (mimeLookup ext AUDIO_MIME_TYPES).getD "audio/mp3"

/-- `isValidAudioFile`: with a non-empty MIME type, accept when it starts
with `"audio/"` or is one of the known MIME values; with an empty MIME
type, fall back to the extension being a key of `AUDIO_MIME_TYPES`. -/
def isValidAudioFile (f : JsFile) : Bool :=
  let fileName := f.name.toList.map Char.toLower
  let ext := (splitChar '.' fileName).getLastD []
  if f.type.length > 0 then
    "audio/".toList.isPrefixOf f.type.toList
      || (AUDIO_MIME_TYPES.map Prod.snd).contains f.type
  else
    decide (ext ≠ []) && (mimeLookup ext AUDIO_MIME_TYPES).isSome

/-- `file.name.replace(/\.[^/.]+$/, "")`: strip a final `.ext` whose `ext`
is non-empty and contains neither `'.'` nor `'/'`; otherwise the name is
unchanged (the regex is anchored at the end, so at most the last dot can
start a match). -/
def stripExtChars (cs : List Char) : List Char :=
  let rev := cs.reverse
  let after := rev.takeWhile (fun c => c ≠ '.')
  if after.length < rev.length then
    if after ≠ [] ∧ after.all (fun c => c ≠ '/') then
      (rev.drop (after.length + 1)).reverse
    else cs
  else cs

/-- `getAudioFolderName` in `AddNew.tsx`. -/
def getAudioFolderName (f : JsFile) : List Char :=
  stripExtChars f.name.toList

/-- `createAudioMetadata(file, folderName, thumbnail)`. `Date.now()` and the
`Math.random()`-based color are platform inputs passed in as `now` and
`color`. -/
def createAudioMetadata (file : JsFile) (folderName : List Char)
    (thumbnail : String) (now : Int) (color : String) : AudioMetadataRec :=
  { name := (stripExtChars file.name.toList).asString
    folderName := folderName.asString
    fileName := file.name
    color := color
    cover := thumbnail
    size := file.size
    mimeType :=
      if file.type.length > 0 then file.type
      else getMimeTypeFromExtension file.name
    uploadedAt := now
    lastModified := file.lastModified }

/-- Stands in for `JSON.stringify(metadata, null, 2)` — a platform
serializer; no claim inspects the serialized text, only the fact that some
bytes are stored at the sidecar path. -/
def metadataToText (m : AudioMetadataRec) : String :=
  String.intercalate ", "
    [m.name, m.folderName, m.fileName, m.color, m.cover, m.mimeType,
     toString m.size, toString m.uploadedAt, toString m.lastModified]

def metadataSeg : Seg := "metadata.json".toList

/-- `handleFileUpload` in `AddNew.tsx`: validate, derive the folder name,
save the payload at `folderName/file.name`, then save the sidecar at
`folderName/metadata.json`. A thrown storage error is caught by the
surrounding try/catch (an alert), leaving whatever had already been
written. -/
def handleFileUpload (env : ExecEnv) (st : Store) (file : JsFile)
    (now : Int) (color : String) (origin : String) : Store :=
  if isValidAudioFile file = false then st
  else
    let folderName := stripExtChars file.name.toList
    let filePath := folderName ++ '/' :: file.name.toList
    let metadata :=
      createAudioMetadata file folderName (origin ++ "/audio-thumbnail.jpg")
        now color
    match saveFile env st filePath (.blob file.content) with
    | .error _ => st
    | .ok (st1, _) =>
      let metadataPath := folderName ++ '/' :: metadataSeg
      match saveFile env st1 metadataPath (.str (metadataToText metadata)) with
      | .error _ => st1
      | .ok (st2, _) => st2

/-- The immediate file children of a top-level folder, as
`OpfsStorage.listFiles(folder)` reports them: the stored entries whose key
is `[folder, name]`. -/
def filesIn (folder : Seg) (st : Store) : List Seg :=
  st.filterMap (fun kv =>
    match kv.1 with
    | [d, n] => if d = folder then some n else none
    | _ => none)

/-- The non-sidecar files of a folder (what `getAllFiles` scans with
`files.find((file) => file !== "metadata.json")`). -/
def payloadFilesIn (folder : Seg) (st : Store) : List Seg :=
  (filesIn folder st).filter (fun n => n ≠ metadataSeg)

def metadataFilesIn (folder : Seg) (st : Store) : List Seg :=
  (filesIn folder st).filter (fun n => n = metadataSeg)

/-- A decoded `AudioBuffer`: all the scheduler reads from it is `duration`.
Durations and audio-clock times are `ℚ`; the recurrences proved are the
exact arithmetic the code performs on them. -/
structure AudioBuffer where
  duration : ℚ
deriving DecidableEq, Repr

/-- An `AudioBufferSourceNode` after `source.start(startTime)`. -/
structure ScheduledSource where
  buffer : AudioBuffer
  startAt : ℚ
deriving DecidableEq, Repr

/-- The scheduling loop of `onPlayClick`: start the next source at the
running offset, then advance the offset by the buffer's own duration. -/
def scheduleLoop (t0 : ℚ) : List AudioBuffer → List ScheduledSource
  | [] => []
  | b :: bs => ⟨b, t0⟩ :: scheduleLoop (t0 + b.duration) bs

/-- `audioBuffers.reduce((sum, buffer) => sum + buffer.duration, 0)`. -/
def totalDurationOf (bs : List AudioBuffer) : ℚ :=
  bs.foldl (fun s b => s + b.duration) 0

inductive DecodeError where
  | decodeFailed
deriving DecidableEq, Repr

/-- `playbackTimerRef.current` of `StitchAudio`. -/
structure PlaybackTimer where
  duration : ℚ
  startTime : ℚ
  volume : ℚ
  filesLen : Nat
deriving DecidableEq, Repr

/-- The observable state of the `StitchAudio` component: the mutable timer
ref, the React state flags (`isPlaying`, `isStitching`, `currTime`,
`duration`), whether a polling-loop frame is pending (`animationRef`), the
sources scheduled in the current session, and the gain value the current
`gainNodeRef` holds (if a session ever created one). -/
structure PlayerState where
  timer : PlaybackTimer
  isPlaying : Bool
  isStitching : Bool
  currTime : ℚ
  duration : ℚ
  animationPending : Bool
  scheduled : List ScheduledSource
  gainValue : Option ℚ
deriving DecidableEq, Repr

/-- The component's initial state: volume defaults to 80, everything else
zero / empty / absent. -/
def initialPlayerState : PlayerState :=
  { timer := { duration := 0, startTime := 0, volume := 80, filesLen := 0 }
    isPlaying := false
    isStitching := false
    currTime := 0
    duration := 0
    animationPending := false
    scheduled := []
    gainValue := none }

/-- `stopPlayback`: clear `isPlaying`, suspend the context (scheduled
sources stay attached to the suspended clock), cancel the pending frame. -/
def stopPlayback (st : PlayerState) : PlayerState :=
  { st with isPlaying := false, animationPending := false }

/-- `endPlayback`: clear `isPlaying`, close the context (discarding every
scheduled source with it) and create a fresh one, zero the timer's
`duration`, `filesLen` and `startTime`, zero the displayed `currTime` and
`duration`, cancel the pending frame. The `volume` field of the timer and
the `gainNodeRef` are not touched. -/
def endPlayback (st : PlayerState) : PlayerState :=
  { st with
      isPlaying := false
      timer := { st.timer with duration := 0, filesLen := 0, startTime := 0 }
      currTime := 0
      duration := 0
      animationPending := false
      scheduled := [] }

/-- One tick of `updatePlaybackTime`, at audio-clock reading `now`: compute
`elapsed = now - startTime`; past the end, stop and return; otherwise
report `elapsed` as the current time exactly when `0 ≤ elapsed ≤ duration`,
and reschedule the loop. -/
def updatePlaybackTime (st : PlayerState) (now : ℚ) : PlayerState :=
  let elapsed := now - st.timer.startTime
  if st.timer.duration < elapsed then stopPlayback st
  else
    let st1 :=
      if elapsed ≤ st.timer.duration ∧ 0 ≤ elapsed then
        { st with currTime := elapsed }
      else st
    { st1 with animationPending := true }

/-- The catalog-size `useEffect` of `StitchAudio`: when the tracked entry
count is zero, or the catalog's length still matches it, do nothing;
otherwise `endPlayback()`. -/
def catalogSizeEffect (st : PlayerState) (foldersLen : Nat) : PlayerState :=
  if st.timer.filesLen = 0 ∨ foldersLen = st.timer.filesLen then st
  else endPlayback st

/-- `handleVolumeChange(newVolume)`: store the volume in the timer ref and,
if a gain node exists, set its gain to `newVolume / 100`. -/
def handleVolumeChange (st : PlayerState) (newVolume : ℚ) : PlayerState :=
  { st with
      timer := { st.timer with volume := newVolume }
      gainValue := st.gainValue.map (fun _ => newVolume / 100) }

/-- The gain value `getGainNode` gives the fresh per-session gain node:
`playbackTimerRef.volume / 100`. -/
def sessionGainValue (st : PlayerState) : ℚ :=
  st.timer.volume / 100

/-- The prepare-and-schedule tail of `onPlayClick` (the path taken when the
context is neither suspended nor currently playing): `endPlayback()`, set
`isStitching`, fetch the payloads, record their count, decode them all
(`Promise.all` — one failure rejects the whole step and nothing past the
`await` runs, so the `.error` result keeps the state exactly as it was at
the throw), then compute the total duration, build the timeline at
audio-clock time `now`, create the session gain node, schedule every
buffer, and flip to playing. -/
def onPlayPrepare (st : PlayerState) (files : List Bytes)
    (decode : Bytes → Except DecodeError AudioBuffer) (now : ℚ) :
    PlayerState × Option DecodeError :=
  let st0 := endPlayback st
  let st1 :=
    { st0 with
        isStitching := true
        timer := { st0.timer with filesLen := files.length } }
  match mapExcept decode files with
  | .error e => (st1, some e)
  | .ok buffers =>
    let tot := totalDurationOf buffers
    ({ st1 with
        duration := tot
        timer := { st1.timer with duration := tot, startTime := now }
        gainValue := some (sessionGainValue st1)
        scheduled := scheduleLoop now buffers
        isPlaying := true
        isStitching := false
        animationPending := true }, none)

theorem workerBuffer_eq_dataBytes (d : StorageData) :
    workerBuffer d = dataBytes d := by
  cases d <;> rfl

theorem lookupEntry_insertEntry_self (k : Key) (v : Bytes) (st : Store) :
    lookupEntry k (insertEntry k v st) = some v := by
  induction st with
  | nil => simp [insertEntry, lookupEntry]
  | cons kv rest ih =>
    obtain ⟨k0, v0⟩ := kv
    by_cases h : k0 = k
    · simp [insertEntry, lookupEntry, h]
    · simp [insertEntry, lookupEntry, h, ih]

/-- C2. For every valid path (at least one non-empty segment), every
supported payload, any previous store content, and any pair of execution
contexts that initialise successfully, `saveFile(path, data)` succeeds and
a subsequent `readFile(path)` — in either context — returns exactly the
bytes `data` denotes, the previous content at the path having been
replaced. -/
theorem storage_save_read_roundtrip (env env2 : ExecEnv) (st : Store)
    (path : List Char) (data : StorageData)
    (h1 : ensureInitOk env = true) (h2 : ensureInitOk env2 = true)
    (hp : splitPath path ≠ []) :
    ∃ st2 evs, saveFile env st path data = .ok (st2, evs) ∧
      lookupEntry (splitPath path) st2 = some (dataBytes data) ∧
      readFile env2 st2 path = .ok (dataBytes data) := by
  obtain ⟨s0, l0, hsp⟩ := List.exists_cons_of_ne_nil hp
  refine ⟨insertEntry (splitPath path) (dataBytes data) st,
          emitChange env ⟨.fileAdded, path⟩, ?_, ?_, ?_⟩
  · cases hctx : getExecutionContext env <;>
      simp [saveFile, h1, hsp, hctx, workerBuffer_eq_dataBytes]
  · exact lookupEntry_insertEntry_self _ _ _
  · cases hctx2 : getExecutionContext env2 <;>
      simp [readFile, h2, hsp, hctx2, lookupEntry_insertEntry_self]

theorem storage_save_read_roundtrip_witness :
    ∃ st2 evs,
      saveFile ⟨false, true, true⟩ [] ("a/b.mp3".toList)
        (.arrayBuffer [1, 2, 3]) = .ok (st2, evs) ∧
      lookupEntry (splitPath "a/b.mp3".toList) st2 = some [1, 2, 3] ∧
      readFile ⟨false, true, true⟩ st2 ("a/b.mp3".toList) = .ok [1, 2, 3] :=
  storage_save_read_roundtrip ⟨false, true, true⟩ ⟨false, true, true⟩ []
    ("a/b.mp3".toList) (.arrayBuffer [1, 2, 3])
    (by decide) (by decide) (by decide)

/-- C6 (counterexample). In the worker execution context — where
`WorkerGlobalScope` exists and `window` does not — a `saveFile` call
succeeds yet publishes no change event at all, because `emitChange` guards
its dispatch on `typeof window !== "undefined"`. This refutes the claim
that every successful save publishes a `file-added` event in both
contexts. -/
theorem saveFile_worker_publishes_nothing :
    (saveFile ⟨true, false, true⟩ [] ("a/b.mp3".toList)
        (.arrayBuffer [1, 2])).isOk = true ∧
    (saveFile ⟨true, false, true⟩ [] ("a/b.mp3".toList)
        (.arrayBuffer [1, 2])).map Prod.snd = .ok [] := by
  constructor
  · rfl
  · rfl

/-- C6 (amended). A successful `saveFile(path, data)` publishes the
`file-added` change event carrying that path exactly when the environment
has a `window` object — so in the foreground context it is published, and
in the worker context (no `window`) nothing is published. -/
theorem saveFile_events (env : ExecEnv) (st : Store) (path : List Char)
    (data : StorageData)
    (h1 : ensureInitOk env = true) (hp : splitPath path ≠ []) :
    ∃ st2, saveFile env st path data =
      .ok (st2, if env.hasWindow then [⟨.fileAdded, path⟩] else []) := by
  obtain ⟨s0, l0, hsp⟩ := List.exists_cons_of_ne_nil hp
  refine ⟨insertEntry (splitPath path)
    (match getExecutionContext env with
     | .worker => workerBuffer data
     | _ => dataBytes data) st, ?_⟩
  simp [saveFile, h1, hsp, emitChange]

theorem saveFile_events_witness :
    ∃ st2, saveFile ⟨false, true, true⟩ [] ("a/b.mp3".toList)
        (.arrayBuffer [7]) =
      .ok (st2, if (true : Bool) then [⟨.fileAdded, "a/b.mp3".toList⟩]
                else []) :=
  saveFile_events ⟨false, true, true⟩ [] ("a/b.mp3".toList)
    (.arrayBuffer [7]) (by decide) (by decide)

theorem mapExcept_isOk_iff {ε α β : Type} (f : α → Except ε β)
    (l : List α) :
    (mapExcept f l).isOk = true ↔ ∀ a ∈ l, (f a).isOk = true := by
  induction l with
  | nil => simp [mapExcept, Except.isOk, Except.toBool]
  | cons a as ih =>
    cases hfa : f a with
    | error e => simp [mapExcept, hfa, Except.isOk, Except.toBool]
    | ok b =>
      cases hm : mapExcept f as with
      | error e =>
        rw [hm] at ih
        simp [mapExcept, hfa, hm, Except.isOk, Except.toBool] at ih ⊢
        exact ih
      | ok bs =>
        rw [hm] at ih
        simp [mapExcept, hfa, hm, Except.isOk, Except.toBool] at ih ⊢
        exact ih

def cexMeta : AudioMetadataRec :=
  { name := "g", folderName := "g", fileName := "g.mp3", color := "c"
    cover := "v", size := 1, mimeType := "audio/mpeg", uploadedAt := 5
    lastModified := 0 }

/-- C3 (counterexample). With two listed folders whose sidecars are
`good` (readable) and `bad` (unreadable), the whole `load()` fails even
though the listing itself succeeded and one sidecar was perfectly fine:
the `Promise.all` in `loadFolders` has no per-entry catch, so the claim
that a bad sidecar is silently excluded while the others are returned is
false. -/
theorem loadFolders_not_perEntry_tolerant :
    ((fun n => if n = "good" then Except.ok cexMeta
               else Except.error StorageError.notFound) "good").isOk = true ∧
    (loadFolders (.ok ["good", "bad"])
      (fun n => if n = "good" then Except.ok cexMeta
                else Except.error StorageError.notFound)).isOk = false := by
  constructor
  · rfl
  · rfl

/-- C3 (amended). `load()` succeeds exactly when the top-level listing
succeeds and *every* entry's sidecar is readable and parseable: a single
bad sidecar fails the whole load (no entries are returned), and a listing
failure fails it as well. (Per-entry failures are tolerated only in
`getAllFiles`, not in `loadFolders`.) -/
theorem loadFolders_failure_semantics
    (listing : Except StorageError (List String))
    (readMeta : String → Except StorageError AudioMetadataRec) :
    (∀ dirs, listing = .ok dirs →
      ((loadFolders listing readMeta).isOk = true ↔
        ∀ d ∈ dirs, (readMeta d).isOk = true)) ∧
    (listing.isOk = false → (loadFolders listing readMeta).isOk = false) := by
  constructor
  · intro dirs hdirs
    subst hdirs
    have h := mapExcept_isOk_iff readMeta dirs
    cases hm : mapExcept readMeta dirs with
    | error e =>
      rw [hm] at h
      simp [loadFolders, hm, Except.isOk, Except.toBool] at h ⊢
      exact h
    | ok ms =>
      rw [hm] at h
      simp [loadFolders, hm, Except.isOk, Except.toBool] at h ⊢
      exact h
  · intro hlist
    cases listing with
    | error e => simp [loadFolders, Except.isOk, Except.toBool]
    | ok dirs => simp [Except.isOk, Except.toBool] at hlist

theorem loadFolders_failure_semantics_witness :
    (loadFolders (.ok ["d"])
      (fun _ => Except.ok cexMeta)).isOk = true :=
  ((loadFolders_failure_semantics (.ok ["d"])
    (fun _ => Except.ok cexMeta)).1 ["d"] rfl).mpr (fun d _ => rfl)

theorem insertDesc_perm (m : AudioMetadataRec) (l : List AudioMetadataRec) :
    List.Perm (insertDesc m l) (m :: l) := by
  induction l with
  | nil => simp [insertDesc]
  | cons x xs ih =>
    by_cases h : m.uploadedAt < x.uploadedAt
    · simp only [insertDesc, if_pos h]
      exact (ih.cons x).trans (List.Perm.swap m x xs)
    · simp [insertDesc, if_neg h]

theorem sortByUploadedDesc_perm (l : List AudioMetadataRec) :
    List.Perm (sortByUploadedDesc l) l := by
  induction l with
  | nil => simp [sortByUploadedDesc]
  | cons x xs ih =>
    exact (insertDesc_perm x (sortByUploadedDesc xs)).trans (ih.cons x)

theorem insertDesc_pairwise (m : AudioMetadataRec)
    (l : List AudioMetadataRec)
    (h : List.Pairwise (fun a b => b.uploadedAt ≤ a.uploadedAt) l) :
    List.Pairwise (fun a b => b.uploadedAt ≤ a.uploadedAt) (insertDesc m l) := by
  induction l with
  | nil => simp [insertDesc]
  | cons x xs ih =>
    rcases List.pairwise_cons.mp h with ⟨hx, hxs⟩
    by_cases hlt : m.uploadedAt < x.uploadedAt
    · simp only [insertDesc, if_pos hlt]
      refine List.pairwise_cons.mpr ⟨?_, ih hxs⟩
      intro y hy
      rcases List.mem_cons.mp ((insertDesc_perm m xs).mem_iff.mp hy) with
        hym | hyxs
      · subst hym; exact le_of_lt hlt
      · exact hx y hyxs
    · simp only [insertDesc, if_neg hlt]
      push_neg at hlt
      refine List.pairwise_cons.mpr ⟨?_, h⟩
      intro y hy
      rcases List.mem_cons.mp hy with hyx | hyxs
      · subst hyx; exact hlt
      · exact le_trans (hx y hyxs) hlt

theorem sortByUploadedDesc_sorted (l : List AudioMetadataRec) :
    List.Pairwise (fun a b => b.uploadedAt ≤ a.uploadedAt)
      (sortByUploadedDesc l) := by
  induction l with
  | nil => simp [sortByUploadedDesc]
  | cons x xs ih => exact insertDesc_pairwise x (sortByUploadedDesc xs) ih

theorem filter_insertDesc (m : AudioMetadataRec)
    (l : List AudioMetadataRec) (k : Int) :
    (insertDesc m l).filter (fun x => decide (x.uploadedAt = k)) =
      if m.uploadedAt = k then
        m :: l.filter (fun x => decide (x.uploadedAt = k))
      else l.filter (fun x => decide (x.uploadedAt = k)) := by
  induction l with
  | nil =>
    by_cases hm : m.uploadedAt = k <;> simp [insertDesc, List.filter, hm]
  | cons x xs ih =>
    by_cases hlt : m.uploadedAt < x.uploadedAt
    · simp only [insertDesc, if_pos hlt]
      by_cases hm : m.uploadedAt = k
      · have hx : ¬ x.uploadedAt = k := by
          intro hxk
          rw [hm, hxk] at hlt
          exact lt_irrefl _ hlt
        rw [if_pos hm]
        simp [List.filter, hx, ih, hm]
      · rw [if_neg hm]
        by_cases hx : x.uploadedAt = k <;>
          simp [List.filter, hx, ih, hm]
    · simp only [insertDesc, if_neg hlt]
      by_cases hm : m.uploadedAt = k
      · rw [if_pos hm]
        simp [List.filter, hm]
      · rw [if_neg hm]
        simp [List.filter, hm]

theorem filter_sortByUploadedDesc (l : List AudioMetadataRec) (k : Int) :
    (sortByUploadedDesc l).filter (fun x => decide (x.uploadedAt = k)) =
      l.filter (fun x => decide (x.uploadedAt = k)) := by
  induction l with
  | nil => simp [sortByUploadedDesc]
  | cons x xs ih =>
    by_cases hx : x.uploadedAt = k <;>
      simp [sortByUploadedDesc, filter_insertDesc, hx, ih, List.filter]

/-- C5. When the top-level listing succeeds and every sidecar parses,
giving entries `ms` in directory-listing order, `load()` returns exactly
the stable descending sort of `ms` by `uploadedAt`: a permutation of the
entries, sorted descending, strictly descending whenever the `uploadedAt`
values are pairwise distinct, and with every equal-`uploadedAt` fibre kept
in its original listing order (stability). -/
theorem loadFolders_catalog_ordering (dirs : List String)
    (readMeta : String → Except StorageError AudioMetadataRec)
    (ms : List AudioMetadataRec)
    (h : mapExcept readMeta dirs = .ok ms) :
    loadFolders (.ok dirs) readMeta = .ok (sortByUploadedDesc ms) ∧
    List.Perm (sortByUploadedDesc ms) ms ∧
    List.Pairwise (fun a b => b.uploadedAt ≤ a.uploadedAt)
      (sortByUploadedDesc ms) ∧
    (List.Pairwise (fun a b => a.uploadedAt ≠ b.uploadedAt) ms →
      List.Pairwise (fun a b => b.uploadedAt < a.uploadedAt)
        (sortByUploadedDesc ms)) ∧
    (∀ k : Int,
      (sortByUploadedDesc ms).filter (fun x => decide (x.uploadedAt = k)) =
        ms.filter (fun x => decide (x.uploadedAt = k))) := by
  refine ⟨by simp [loadFolders, h], sortByUploadedDesc_perm ms,
    sortByUploadedDesc_sorted ms, ?_, fun k => filter_sortByUploadedDesc ms k⟩
  intro hdist
  have hdist' : List.Pairwise
      (fun a b => a.uploadedAt ≠ b.uploadedAt) (sortByUploadedDesc ms) :=
    ((sortByUploadedDesc_perm ms).pairwise_iff
      (fun {a b} hab => Ne.symm hab)).mpr hdist
  exact ((sortByUploadedDesc_sorted ms).and hdist').imp
    (fun hab => lt_of_le_of_ne hab.1 (Ne.symm hab.2))

def metaA : AudioMetadataRec :=
  { cexMeta with name := "A", uploadedAt := 1 }

def metaB : AudioMetadataRec :=
  { cexMeta with name := "B", uploadedAt := 3 }

def metaC : AudioMetadataRec :=
  { cexMeta with name := "C", uploadedAt := 2 }

def witnessReadMeta (n : String) : Except StorageError AudioMetadataRec :=
  if n = "a" then .ok metaA else if n = "b" then .ok metaB else .ok metaC

theorem loadFolders_catalog_ordering_witness :
    loadFolders (.ok ["a", "b", "c"]) witnessReadMeta =
      .ok (sortByUploadedDesc [metaA, metaB, metaC]) ∧
    List.Perm (sortByUploadedDesc [metaA, metaB, metaC])
      [metaA, metaB, metaC] ∧
    List.Pairwise (fun a b => b.uploadedAt ≤ a.uploadedAt)
      (sortByUploadedDesc [metaA, metaB, metaC]) ∧
    (List.Pairwise (fun a b => a.uploadedAt ≠ b.uploadedAt)
        [metaA, metaB, metaC] →
      List.Pairwise (fun a b => b.uploadedAt < a.uploadedAt)
        (sortByUploadedDesc [metaA, metaB, metaC])) ∧
    (∀ k : Int,
      (sortByUploadedDesc [metaA, metaB, metaC]).filter
          (fun x => decide (x.uploadedAt = k)) =
        [metaA, metaB, metaC].filter (fun x => decide (x.uploadedAt = k))) :=
  loadFolders_catalog_ordering ["a", "b", "c"] witnessReadMeta
    [metaA, metaB, metaC] (by rfl)

theorem scheduleLoop_length (t0 : ℚ) (bs : List AudioBuffer) :
    (scheduleLoop t0 bs).length = bs.length := by
  induction bs generalizing t0 with
  | nil => rfl
  | cons b bs ih => simp [scheduleLoop, ih]

theorem scheduleLoop_getD_succ (t0 : ℚ) (bs : List AudioBuffer) (i : Nat)
    (h : i + 1 < bs.length) :
    ((scheduleLoop t0 bs).getD (i + 1) ⟨⟨0⟩, 0⟩).startAt =
      ((scheduleLoop t0 bs).getD i ⟨⟨0⟩, 0⟩).startAt +
        ((scheduleLoop t0 bs).getD i ⟨⟨0⟩, 0⟩).buffer.duration := by
  induction bs generalizing t0 i with
  | nil => simp at h
  | cons b bs ih =>
    cases i with
    | zero =>
      cases bs with
      | nil => simp at h
      | cons c cs => simp [scheduleLoop]
    | succ j =>
      have h' : j + 1 < bs.length := by
        simpa [Nat.succ_lt_succ_iff] using h
      simpa [scheduleLoop] using ih (t0 + b.duration) j h'

theorem foldl_add_duration (bs : List AudioBuffer) (a : ℚ) :
    bs.foldl (fun s b => s + b.duration) a =
      a + (bs.map AudioBuffer.duration).sum := by
  induction bs generalizing a with
  | nil => simp
  | cons b bs ih => simp [List.foldl, ih, add_assoc]

theorem totalDurationOf_eq_sum (bs : List AudioBuffer) :
    totalDurationOf bs = (bs.map AudioBuffer.duration).sum := by
  simp [totalDurationOf, foldl_add_duration]

/-- C1. In a successful preparation (all payloads decode to `buffers`),
the session schedules exactly the timeline built at audio-clock time
`now`: the first buffer's start offset is `now`, each next buffer's start
offset is the previous one's start offset plus the previous buffer's
duration, exactly, and both the timer's duration and the displayed
duration equal the sum of the decoded buffers' durations. -/
theorem onPlayPrepare_gapless_timeline (st : PlayerState)
    (files : List Bytes) (decode : Bytes → Except DecodeError AudioBuffer)
    (now : ℚ) (buffers : List AudioBuffer)
    (h : mapExcept decode files = .ok buffers) :
    (onPlayPrepare st files decode now).1.scheduled =
      scheduleLoop now buffers ∧
    (buffers ≠ [] →
      ((onPlayPrepare st files decode now).1.scheduled.headD
        ⟨⟨0⟩, 0⟩).startAt = now) ∧
    (∀ i, i + 1 < (onPlayPrepare st files decode now).1.scheduled.length →
      ((onPlayPrepare st files decode now).1.scheduled.getD (i + 1)
          ⟨⟨0⟩, 0⟩).startAt =
        ((onPlayPrepare st files decode now).1.scheduled.getD i
          ⟨⟨0⟩, 0⟩).startAt +
        ((onPlayPrepare st files decode now).1.scheduled.getD i
          ⟨⟨0⟩, 0⟩).buffer.duration) ∧
    (onPlayPrepare st files decode now).1.timer.duration =
      (buffers.map AudioBuffer.duration).sum ∧
    (onPlayPrepare st files decode now).1.duration =
      (buffers.map AudioBuffer.duration).sum := by
  have hsched : (onPlayPrepare st files decode now).1.scheduled =
      scheduleLoop now buffers := by
    simp [onPlayPrepare, h]
  refine ⟨hsched, ?_, ?_, ?_, ?_⟩
  · intro hne
    obtain ⟨b, bs, rfl⟩ := List.exists_cons_of_ne_nil hne
    rw [hsched]
    simp [scheduleLoop]
  · intro i hi
    rw [hsched] at hi ⊢
    rw [scheduleLoop_length] at hi
    exact scheduleLoop_getD_succ now buffers i hi
  · simp [onPlayPrepare, h, totalDurationOf_eq_sum]
  · simp [onPlayPrepare, h, totalDurationOf_eq_sum]

theorem onPlayPrepare_gapless_timeline_witness :
    (onPlayPrepare initialPlayerState [[1], [2]]
      (fun _ => .ok ⟨2⟩) 5).1.scheduled = scheduleLoop 5 [⟨2⟩, ⟨2⟩] ∧
    ([(⟨2⟩ : AudioBuffer), ⟨2⟩] ≠ [] →
      ((onPlayPrepare initialPlayerState [[1], [2]]
        (fun _ => .ok ⟨2⟩) 5).1.scheduled.headD ⟨⟨0⟩, 0⟩).startAt = 5) ∧
    (∀ i, i + 1 < (onPlayPrepare initialPlayerState [[1], [2]]
        (fun _ => .ok ⟨2⟩) 5).1.scheduled.length →
      ((onPlayPrepare initialPlayerState [[1], [2]]
          (fun _ => .ok ⟨2⟩) 5).1.scheduled.getD (i + 1)
          ⟨⟨0⟩, 0⟩).startAt =
        ((onPlayPrepare initialPlayerState [[1], [2]]
          (fun _ => .ok ⟨2⟩) 5).1.scheduled.getD i ⟨⟨0⟩, 0⟩).startAt +
        ((onPlayPrepare initialPlayerState [[1], [2]]
          (fun _ => .ok ⟨2⟩) 5).1.scheduled.getD i
          ⟨⟨0⟩, 0⟩).buffer.duration) ∧
    (onPlayPrepare initialPlayerState [[1], [2]]
      (fun _ => .ok ⟨2⟩) 5).1.timer.duration =
      ([(⟨2⟩ : AudioBuffer), ⟨2⟩].map AudioBuffer.duration).sum ∧
    (onPlayPrepare initialPlayerState [[1], [2]]
      (fun _ => .ok ⟨2⟩) 5).1.duration =
      ([(⟨2⟩ : AudioBuffer), ⟨2⟩].map AudioBuffer.duration).sum :=
  onPlayPrepare_gapless_timeline initialPlayerState [[1], [2]]
    (fun _ => .ok ⟨2⟩) 5 [⟨2⟩, ⟨2⟩] (by rfl)

/-- C4 (counterexample). When the single payload fails to decode, the
aborted preparation leaves `isStitching = true` — the stitching/preparing
state is *not* left and the component does not return to idle, because
`onPlayClick` has no catch that would clear the flag. (Nothing is
scheduled, as the claim also says.) -/
theorem onPlayPrepare_decode_failure_keeps_stitching :
    (onPlayPrepare initialPlayerState [[1]]
      (fun _ => .error DecodeError.decodeFailed) 0).1.isStitching = true ∧
    (onPlayPrepare initialPlayerState [[1]]
      (fun _ => .error DecodeError.decodeFailed) 0).1.scheduled = [] ∧
    (onPlayPrepare initialPlayerState [[1]]
      (fun _ => .error DecodeError.decodeFailed) 0).2 =
      some DecodeError.decodeFailed := ⟨rfl, rfl, rfl⟩

/-- C4 (amended). If any payload fails to decode, the whole preparation
aborts with the error: no buffer is scheduled (no partial timeline) and
the session is not playing — but the state does not return to idle: the
stitching flag stays set (and the tracked file count keeps the fetched
length), since the rejection propagates out of `onPlayClick` uncaught. -/
theorem onPlayPrepare_decode_failure_aborts (st : PlayerState)
    (files : List Bytes) (decode : Bytes → Except DecodeError AudioBuffer)
    (now : ℚ) (e : DecodeError)
    (h : mapExcept decode files = .error e) :
    (onPlayPrepare st files decode now).2 = some e ∧
    (onPlayPrepare st files decode now).1.scheduled = [] ∧
    (onPlayPrepare st files decode now).1.isPlaying = false ∧
    (onPlayPrepare st files decode now).1.isStitching = true ∧
    (onPlayPrepare st files decode now).1.timer.filesLen =
      files.length := by
  simp [onPlayPrepare, h, endPlayback]

theorem onPlayPrepare_decode_failure_aborts_witness :
    (onPlayPrepare initialPlayerState [[1]]
      (fun _ => .error DecodeError.decodeFailed) 0).2 =
      some DecodeError.decodeFailed ∧
    (onPlayPrepare initialPlayerState [[1]]
      (fun _ => .error DecodeError.decodeFailed) 0).1.scheduled = [] ∧
    (onPlayPrepare initialPlayerState [[1]]
      (fun _ => .error DecodeError.decodeFailed) 0).1.isPlaying = false ∧
    (onPlayPrepare initialPlayerState [[1]]
      (fun _ => .error DecodeError.decodeFailed) 0).1.isStitching = true ∧
    (onPlayPrepare initialPlayerState [[1]]
      (fun _ => .error DecodeError.decodeFailed) 0).1.timer.filesLen =
      ([[1]] : List Bytes).length :=
  onPlayPrepare_decode_failure_aborts initialPlayerState [[1]]
    (fun _ => .error DecodeError.decodeFailed) 0 DecodeError.decodeFailed
    (by rfl)

/-- C8. The catalog-size effect: while a session is tracked
(`filesLen ≠ 0`) and the catalog's entry count differs from the tracked
count, `endPlayback()` runs — the timer's duration, start time and file
count, and the displayed current time and duration, all reset to zero and
the session stops playing (idle); when no session is tracked
(`filesLen = 0`) the state is left untouched. -/
theorem catalogSizeEffect_resets (st : PlayerState) (foldersLen : Nat) :
    (st.timer.filesLen ≠ 0 → foldersLen ≠ st.timer.filesLen →
      catalogSizeEffect st foldersLen = endPlayback st ∧
      (catalogSizeEffect st foldersLen).timer.duration = 0 ∧
      (catalogSizeEffect st foldersLen).timer.startTime = 0 ∧
      (catalogSizeEffect st foldersLen).timer.filesLen = 0 ∧
      (catalogSizeEffect st foldersLen).currTime = 0 ∧
      (catalogSizeEffect st foldersLen).duration = 0 ∧
      (catalogSizeEffect st foldersLen).isPlaying = false) ∧
    (st.timer.filesLen = 0 → catalogSizeEffect st foldersLen = st) := by
  constructor
  · intro h1 h2
    have hcond : ¬ (st.timer.filesLen = 0 ∨
        foldersLen = st.timer.filesLen) := by
      push_neg
      exact ⟨h1, h2⟩
    simp [catalogSizeEffect, hcond, endPlayback]
  · intro h1
    simp [catalogSizeEffect, h1]

theorem catalogSizeEffect_resets_witness :
    catalogSizeEffect
      { initialPlayerState with
          timer := { initialPlayerState.timer with filesLen := 2 } } 1 =
      endPlayback
        { initialPlayerState with
            timer := { initialPlayerState.timer with filesLen := 2 } } ∧
    (catalogSizeEffect
      { initialPlayerState with
          timer := { initialPlayerState.timer with filesLen := 2 } }
        1).timer.duration = 0 ∧
    (catalogSizeEffect
      { initialPlayerState with
          timer := { initialPlayerState.timer with filesLen := 2 } }
        1).timer.startTime = 0 ∧
    (catalogSizeEffect
      { initialPlayerState with
          timer := { initialPlayerState.timer with filesLen := 2 } }
        1).timer.filesLen = 0 ∧
    (catalogSizeEffect
      { initialPlayerState with
          timer := { initialPlayerState.timer with filesLen := 2 } }
        1).currTime = 0 ∧
    (catalogSizeEffect
      { initialPlayerState with
          timer := { initialPlayerState.timer with filesLen := 2 } }
        1).duration = 0 ∧
    (catalogSizeEffect
      { initialPlayerState with
          timer := { initialPlayerState.timer with filesLen := 2 } }
        1).isPlaying = false :=
  (catalogSizeEffect_resets
    { initialPlayerState with
        timer := { initialPlayerState.timer with filesLen := 2 } } 1).1
    (by decide) (by decide)

/-- C9. One polling tick never reports an out-of-range time: the reported
current time either stays what it was or is set to an elapsed value inside
`[0, duration]`; when the elapsed time exceeds the duration the tick stops
playback (cancelling the loop) without touching the reported time; and the
invariant `currTime ∈ [0, duration]` is preserved by every tick. -/
theorem updatePlaybackTime_bounds (st : PlayerState) (now : ℚ) :
    ((updatePlaybackTime st now).currTime = st.currTime ∨
      (0 ≤ (updatePlaybackTime st now).currTime ∧
        (updatePlaybackTime st now).currTime ≤ st.timer.duration)) ∧
    (st.timer.duration < now - st.timer.startTime →
      ((updatePlaybackTime st now).isPlaying = false ∧
       (updatePlaybackTime st now).currTime = st.currTime ∧
       (updatePlaybackTime st now).animationPending = false)) ∧
    (0 ≤ st.currTime → st.currTime ≤ st.timer.duration →
      (0 ≤ (updatePlaybackTime st now).currTime ∧
        (updatePlaybackTime st now).currTime ≤ st.timer.duration)) := by
  by_cases h1 : st.timer.duration < now - st.timer.startTime
  · refine ⟨Or.inl ?_, fun _ => ?_, fun ha hb => ?_⟩
    · simp only [updatePlaybackTime, if_pos h1, stopPlayback]
    · simp only [updatePlaybackTime, if_pos h1, stopPlayback]
      exact ⟨trivial, trivial, trivial⟩
    · simp only [updatePlaybackTime, if_pos h1, stopPlayback]
      exact ⟨ha, hb⟩
  · by_cases h2 : now - st.timer.startTime ≤ st.timer.duration ∧
        0 ≤ now - st.timer.startTime
    · refine ⟨Or.inr ?_, fun hc => absurd hc h1, fun ha hb => ?_⟩
      · simp only [updatePlaybackTime, if_neg h1, if_pos h2]
        exact ⟨h2.2, h2.1⟩
      · simp only [updatePlaybackTime, if_neg h1, if_pos h2]
        exact ⟨h2.2, h2.1⟩
    · refine ⟨Or.inl ?_, fun hc => absurd hc h1, fun ha hb => ?_⟩
      · simp only [updatePlaybackTime, if_neg h1, if_neg h2]
      · simp only [updatePlaybackTime, if_neg h1, if_neg h2]
        exact ⟨ha, hb⟩

theorem updatePlaybackTime_bounds_witness :
    (updatePlaybackTime initialPlayerState 1).isPlaying = false ∧
    (updatePlaybackTime initialPlayerState 1).currTime =
      initialPlayerState.currTime ∧
    (updatePlaybackTime initialPlayerState 1).animationPending = false :=
  (updatePlaybackTime_bounds initialPlayerState 1).2.1
    (by simp [initialPlayerState])

/-- C10. `stop()` and `end()` leave the stored volume untouched while
`end()` zeroes the rest of the session state; the volume defaults to 80,
`setVolume` overwrites it, and a subsequent successful preparation
initialises its fresh gain stage to `volume / 100` from the preserved
value. -/
theorem volume_frame_condition (st : PlayerState) (v now : ℚ)
    (files : List Bytes) (decode : Bytes → Except DecodeError AudioBuffer)
    (buffers : List AudioBuffer)
    (h : mapExcept decode files = .ok buffers) :
    (stopPlayback st).timer.volume = st.timer.volume ∧
    (endPlayback st).timer.volume = st.timer.volume ∧
    (endPlayback st).timer.duration = 0 ∧
    (endPlayback st).currTime = 0 ∧
    (endPlayback st).timer.startTime = 0 ∧
    (endPlayback st).timer.filesLen = 0 ∧
    initialPlayerState.timer.volume = 80 ∧
    (handleVolumeChange st v).timer.volume = v ∧
    (onPlayPrepare st files decode now).1.gainValue =
      some (st.timer.volume / 100) := by
  refine ⟨rfl, rfl, rfl, rfl, rfl, rfl, rfl, rfl, ?_⟩
  simp [onPlayPrepare, h, sessionGainValue, endPlayback]

theorem volume_frame_condition_witness :
    (stopPlayback initialPlayerState).timer.volume =
      initialPlayerState.timer.volume ∧
    (endPlayback initialPlayerState).timer.volume =
      initialPlayerState.timer.volume ∧
    (endPlayback initialPlayerState).timer.duration = 0 ∧
    (endPlayback initialPlayerState).currTime = 0 ∧
    (endPlayback initialPlayerState).timer.startTime = 0 ∧
    (endPlayback initialPlayerState).timer.filesLen = 0 ∧
    initialPlayerState.timer.volume = 80 ∧
    (handleVolumeChange initialPlayerState 50).timer.volume = 50 ∧
    (onPlayPrepare initialPlayerState [[1]]
      (fun _ => .ok ⟨1⟩) 0).1.gainValue =
      some (initialPlayerState.timer.volume / 100) :=
  volume_frame_condition initialPlayerState 50 0 [[1]]
    (fun _ => .ok ⟨1⟩) [⟨1⟩] (by rfl)

theorem splitRaw_ne_nil (cs : List Char) : splitRaw cs ≠ [] := by
  induction cs with
  | nil => simp [splitRaw]
  | cons c rest ih =>
    cases h : splitRaw rest with
    | nil => exact absurd h ih
    | cons s ss =>
      by_cases hc : c = '/' <;> simp [splitRaw, h, hc]

theorem splitRaw_no_sep (cs : List Char) (h : '/' ∉ cs) :
    splitRaw cs = [cs] := by
  induction cs with
  | nil => rfl
  | cons c rest ih =>
    have hc : ¬ (c = '/') := by
      intro hcc
      subst hcc
      exact h (List.mem_cons_self _ _)
    have hrest : '/' ∉ rest := fun hm => h (List.mem_cons_of_mem c hm)
    simp [splitRaw, ih hrest, hc]

theorem splitRaw_append (a b : List Char) (ha : '/' ∉ a) :
    splitRaw (a ++ '/' :: b) = a :: splitRaw b := by
  induction a with
  | nil =>
    cases hb : splitRaw b with
    | nil => exact absurd hb (splitRaw_ne_nil b)
    | cons s ss => simp [splitRaw, hb]
  | cons c a' ih =>
    have hc : ¬ (c = '/') := by
      intro hcc
      subst hcc
      exact ha (List.mem_cons_self _ _)
    have ha' : '/' ∉ a' := fun hm => ha (List.mem_cons_of_mem c hm)
    simp [splitRaw, ih ha', hc]

theorem splitPath_two_segs (a b : List Char) (ha : '/' ∉ a) (hb : '/' ∉ b)
    (ha0 : a ≠ []) (hb0 : b ≠ []) :
    splitPath (a ++ '/' :: b) = [a, b] := by
  simp [splitPath, splitRaw_append a b ha, splitRaw_no_sep b hb,
    List.filter, ha0, hb0]

theorem mem_stripExtChars (cs : List Char) (c : Char)
    (h : c ∈ stripExtChars cs) : c ∈ cs := by
  simp only [stripExtChars] at h
  by_cases h1 : (cs.reverse.takeWhile (fun x => x ≠ '.')).length <
      cs.reverse.length
  · rw [if_pos h1] at h
    by_cases h2 : cs.reverse.takeWhile (fun x => x ≠ '.') ≠ [] ∧
        (cs.reverse.takeWhile (fun x => x ≠ '.')).all (fun x => x ≠ '/')
    · rw [if_pos h2] at h
      have h3 : c ∈ cs.reverse.drop
          ((cs.reverse.takeWhile (fun x => x ≠ '.')).length + 1) :=
        List.mem_reverse.mp h
      exact List.mem_reverse.mp (List.mem_of_mem_drop h3)
    · rw [if_neg h2] at h
      exact h
  · rw [if_neg h1] at h
    exact h

def windowEnv : ExecEnv := ⟨false, true, true⟩

def songMp3 : JsFile :=
  { name := "song.mp3", type := "audio/mpeg", size := 3, lastModified := 0
    content := [1, 2, 3] }

def songWav : JsFile :=
  { name := "song.wav", type := "audio/wav", size := 2, lastModified := 0
    content := [4, 5] }

/-- C7 (counterexample). Uploading `song.mp3` and then `song.wav` — two
valid audio files sharing the base name `song` — puts **two** payload
files into the single folder `song` (and the second upload's sidecar
overwrites the first's), so a reachable upload state violates
"exactly one payload file per folder". -/
theorem upload_same_basename_two_payloads :
    payloadFilesIn ("song".toList)
      (handleFileUpload windowEnv
        (handleFileUpload windowEnv [] songMp3 1 "c" "o")
        songWav 2 "c" "o") =
      ["song.mp3".toList, "song.wav".toList] := by decide

/-- C7 (amended). A *single* upload of a valid audio file into an empty
store — provided its name has at least one character besides the stripped
extension, contains no `'/'`, and is not itself `metadata.json` — yields a
folder holding exactly one metadata sidecar and exactly one payload file
(the uploaded file). The invariant does **not** extend to arbitrary upload
sequences: files sharing a base name land in the same folder and
accumulate payload files (see the counterexample). -/
theorem single_upload_layout (env : ExecEnv) (file : JsFile) (now : Int)
    (color origin : String)
    (henv : ensureInitOk env = true)
    (hvalid : isValidAudioFile file = true)
    (hfolder : stripExtChars file.name.toList ≠ [])
    (hslash : '/' ∉ file.name.toList)
    (hname : file.name.toList ≠ metadataSeg) :
    metadataFilesIn (stripExtChars file.name.toList)
      (handleFileUpload env [] file now color origin) = [metadataSeg] ∧
    payloadFilesIn (stripExtChars file.name.toList)
      (handleFileUpload env [] file now color origin) =
      [file.name.toList] := by
  have hfslash : '/' ∉ stripExtChars file.name.toList :=
    fun hm => hslash (mem_stripExtChars _ _ hm)
  have hname0 : file.name.toList ≠ [] := by
    intro h0
    apply hfolder
    rw [h0]
    rfl
  have hsp1 : splitPath (stripExtChars file.name.toList ++
      '/' :: file.name.toList) =
      [stripExtChars file.name.toList, file.name.toList] :=
    splitPath_two_segs _ _ hfslash hslash hfolder hname0
  have hsp2 : splitPath (stripExtChars file.name.toList ++
      '/' :: metadataSeg) =
      [stripExtChars file.name.toList, metadataSeg] :=
    splitPath_two_segs _ _ hfslash (by decide) hfolder (by decide)
  have hkey : ¬ ([stripExtChars file.name.toList, file.name.toList] =
      [stripExtChars file.name.toList, metadataSeg]) := by
    intro hk
    injection hk with h1 h2
    injection h2 with h3 h4
    exact hname h3
  simp only [String.toList] at hsp1 hsp2 hkey hname
  simp [handleFileUpload, hvalid, saveFile, henv, hsp1, hsp2, insertEntry,
    hkey, metadataFilesIn, payloadFilesIn, filesIn, List.filterMap,
    List.filter, hname]

theorem single_upload_layout_witness :
    metadataFilesIn (stripExtChars "song.mp3".toList)
      (handleFileUpload windowEnv [] songMp3 1 "c" "o") = [metadataSeg] ∧
    payloadFilesIn (stripExtChars "song.mp3".toList)
      (handleFileUpload windowEnv [] songMp3 1 "c" "o") =
      ["song.mp3".toList] :=
  single_upload_layout windowEnv songMp3 1 "c" "o"
    (by decide) (by decide) (by decide) (by decide) (by decide)
